import Mathlib

/-!
Verification of the QUIC-like wire-format codec of this repository
(src/src/utilities/parsers/header.parser.ts: class HeaderParser and
class PacketFactory).

The TypeScript source is shallowly embedded below.  JS Buffers become
lists of byte values (`ByteBuf`); JS numbers used in bitwise positions
become `Int` with explicit 32-bit two's-complement semantics (`toInt32`,
`jsShr`, `jsAnd`); `Bignum` (an arbitrary-precision signed integer) becomes
`Int`; reads that can throw a RangeError return `Option`/`Except`.

Classes of this repository that are not part of the given source
(VLIE, Bignum, the header/packet classes, Constants, VersionValidation)
are modelled from the specification; each such definition carries a
doc comment starting with "Modelled from the spec:".
-/

/-- A JS Buffer modelled as a list of byte values. -/
abbrev ByteBuf := List Nat

/-- JS Buffer.readUInt8 at a possibly-negative offset: returns the byte, or
none (a RangeError) when the offset is negative or past the end. -/
def readUInt8 (buf : ByteBuf) (off : Int) : Option Nat :=
  if off < 0 then none else buf[off.toNat]?

/-- JS Buffer.readUInt8 at a nonnegative offset. -/
def readByte (buf : ByteBuf) (off : Nat) : Option Nat :=
  buf[off]?

/-- JS Buffer.slice(a, b) for nonnegative indices: the bytes of positions
[a, b), clamped to the buffer (never throws). -/
def jsSlice (buf : ByteBuf) (a b : Nat) : ByteBuf :=
  (buf.drop a).take (b - a)

/-- JS Buffer.alloc(len) followed by buf.copy(target, 0, start, start+len):
the copied bytes, zero-filled where the source ran out (copy clamps). -/
def allocCopy (buf : ByteBuf) (len start : Nat) : ByteBuf :=
  jsSlice buf start (start + len) ++
    List.replicate (len - (jsSlice buf start (start + len)).length) 0

/-- JS ToInt32: reinterpret an integer as a 32-bit two's-complement value. -/
def toInt32 (a : Int) : Int :=
  let u := a % 4294967296
  if u < 2147483648 then u else u - 4294967296

/-- JS signed right shift (>>): arithmetic shift of the 32-bit
two's-complement value, i.e. flooring division by 2^n. -/
def jsShr (a : Int) (n : Nat) : Int :=
  Int.fdiv (toInt32 a) (2 ^ n)

/-- JS bitwise AND (&) of two 32-bit two's-complement values. -/
def jsAnd (a b : Int) : Int :=
  toInt32 (Int.ofNat (Nat.land (a % 4294967296).toNat (b % 4294967296).toNat))

/-- Modelled from the spec: ConnectionID (header.properties.ts is not under
src) is an opaque byte sequence together with the length value the parser
passed to the constructor. -/
structure ConnectionID where
  bytes : ByteBuf
  lengthField : Nat
deriving DecidableEq

/- Modelled from the spec (section 6): the numeric values of the long
header type bits (long.header.ts is not under src):
0 Initial, 1 0-RTT/Protected, 2 Handshake, 3 Retry. -/
namespace LongHeaderType

def Initial : Int := 0

def Protected0RTT : Int := 1

def Handshake : Int := 2

def Retry : Int := 3

end LongHeaderType

/-- Modelled from the spec (section 3, Header variants): the header classes
(long.header.ts, short.header.ts, version.negotiation.header.ts) are not
under src.  Fields follow the spec's field lists and the parser's setters:
largestAcked is the second argument of setTruncatedPacketNumber, and
parsedBuffer is the captured raw-byte span, none when setParsedBuffer was
never called (the version negotiation parse never calls it). -/
inductive Header where
  | long (type : Int) (destConnectionID srcConnectionID : ConnectionID)
      (payloadLength : Int) (version : ByteBuf) (payloadLengthBuffer : ByteBuf)
      (truncatedPacketNumber : ByteBuf) (largestAcked : Nat)
      (initialTokens : Option ByteBuf) (parsedBuffer : Option ByteBuf)
  | short (destConnectionID : ConnectionID) (keyPhaseBit spinBit : Bool)
      (truncatedPacketNumber : ByteBuf) (largestAcked : Nat)
      (parsedBuffer : Option ByteBuf)
  | versionNegotiation (destConnectionID srcConnectionID : ConnectionID)
deriving DecidableEq

/-- The payload length of a header, none when the header does not carry one
(the loop condition of HeaderParser.parse: LongHeader with a defined
payload length; parsed long headers always carry one). -/
def payloadLengthOf : Header → Option Int
  | .long _ _ _ payloadLength _ _ _ _ _ _ => some payloadLength
  | _ => none

/-- The largest-acknowledged packet number a header's truncated packet
number was attached with, none when setTruncatedPacketNumber was not called
(version negotiation headers). -/
def largestAckedOf : Header → Option Nat
  | .long _ _ _ _ _ _ _ largestAcked _ _ => some largestAcked
  | .short _ _ _ _ largestAcked _ => some largestAcked
  | .versionNegotiation _ _ => none

/-- The captured raw-byte span of a header, none when setParsedBuffer was
never called. -/
def parsedBufferOf : Header → Option ByteBuf
  | .long _ _ _ _ _ _ _ _ _ parsedBuffer => parsedBuffer
  | .short _ _ _ _ _ parsedBuffer => parsedBuffer
  | .versionNegotiation _ _ => none

/-- Whether a header is a ShortHeader. -/
def isShortHeader : Header → Bool
  | .short _ _ _ _ _ _ => true
  | _ => false

/-- Whether a header is a VersionNegotiationHeader. -/
def isVersionNegotiationHeader : Header → Bool
  | .versionNegotiation _ _ => true
  | _ => false

/-- The errors header parsing can surface: a RangeError from reading past
the end of the buffer, or QuicError(PROTOCOL_VIOLATION). -/
inductive ParseError where
  | truncated
  | protocolViolation
deriving DecidableEq

/-- The parse result interface of header.parser.ts: a header together with
the absolute byte offset immediately following it. -/
structure HeaderOffset where
  header : Header
  offset : Nat
deriving DecidableEq

/-- Big-endian value of a byte sequence. -/
def readBE (l : ByteBuf) : Nat :=
  l.foldl (fun a b => a * 256 + b) 0

/-- Modelled from the spec (section 4.1): result of VLIE.decode, the value
and the offset just past the consumed bytes (crypto/vlie.ts is not under
src). -/
structure VLIEResult where
  value : Nat
  offset : Nat
deriving DecidableEq

namespace VLIE

/-- Modelled from the spec (section 4.1): the variable-length integer
decoder (crypto/vlie.ts is not under src).  The top two bits of the first
byte select a width of 1, 2, 4 or 8 bytes; those two bits are masked off
and the remaining bits are the big-endian value; fails with a bounds error
when fewer bytes remain than the width requires. -/
def decode (buf : ByteBuf) (off : Nat) : Option VLIEResult :=
  match buf[off]? with
  | none => none
  | some b0 =>
    let width := 2 ^ (b0 >>> 6)
    if off + width ≤ buf.length then
      some ⟨readBE ((b0 &&& 63) :: jsSlice buf (off + 1) (off + width)),
            off + width⟩
    else none

end VLIE

/-- Modelled from the spec (section 3): VersionValidation's version
negotiation flag (validation/version.validation.ts is not under src): the
version field equals the all-zero 4-byte sentinel. -/
def isVersionNegotiationFlag (version : ByteBuf) : Bool :=
  version == [0, 0, 0, 0]

/-- The connection-ID length nibble decoding written inline in
header.parser.ts (lines 123-126 and 182-185):
code 0 stays 0, a nonzero code k becomes k + 3. -/
def decodeCIL (code : Nat) : Nat :=
  if code = 0 then code else code + 3

namespace HeaderParser

/-- HeaderParser.parseVersionNegotiationHeader (header.parser.ts:180-198). -/
def parseVersionNegotiationHeader (buf : ByteBuf) (offset : Nat) (type : Int) :
    Except ParseError HeaderOffset :=
  match readByte buf offset with
  | none => .error .truncated
  | some conLengths =>
    let offset := offset + 1
    let destLength := decodeCIL (conLengths >>> 4)
    let srcLength := decodeCIL (conLengths &&& 15)
    let destConnectionID : ConnectionID :=
      ⟨jsSlice buf offset (offset + destLength), destLength⟩
    let offset := offset + destLength
    let srcConnectionID : ConnectionID :=
      ⟨jsSlice buf offset (offset + srcLength), srcLength⟩
    let offset := offset + srcLength
    let _ := type
    .ok ⟨Header.versionNegotiation destConnectionID srcConnectionID, offset⟩

/-- The Initial-token step of HeaderParser.parseLongHeader
(header.parser.ts:134-154): for Initial packets decode the token length
and, when positive, copy that many token bytes; returns the offset after
the step and the optional token. -/
def parseInitialToken (buf : ByteBuf) (offset : Nat) (type : Int) :
    Except ParseError (Nat × Option ByteBuf) :=
  if type = LongHeaderType.Initial then
    match VLIE.decode buf offset with
    | none => .error .truncated
    | some tokenLengthV =>
      if 0 < tokenLengthV.value then
        .ok (tokenLengthV.offset + tokenLengthV.value,
             some (allocCopy buf tokenLengthV.value tokenLengthV.offset))
      else
        .ok (tokenLengthV.offset, none)
  else
    .ok (offset, none)

/-- HeaderParser.parseLongHeader (header.parser.ts:95-178). -/
def parseLongHeader (buf : ByteBuf) (offset : Nat) :
    Except ParseError HeaderOffset :=
  let startOffset := offset
  match readByte buf offset with
  | none => .error .truncated
  | some b0 =>
    let firstByte : Int := (b0 : Int) - 0xC0
    let offset := offset + 1
    let type := jsShr firstByte 4
    if type = LongHeaderType.Retry then
      .error .protocolViolation
    else
      let pnLength := (jsAnd firstByte 3).toNat + 1
      let version := jsSlice buf offset (offset + 4)
      let offset := offset + 4
      if isVersionNegotiationFlag version then
        parseVersionNegotiationHeader buf offset type
      else
        match readByte buf offset with
        | none => .error .truncated
        | some conLengths =>
          let offset := offset + 1
          let dcil := decodeCIL (conLengths >>> 4)
          let scil := decodeCIL (conLengths &&& 15)
          let destConnectionID : ConnectionID :=
            ⟨jsSlice buf offset (offset + dcil), dcil⟩
          let offset := offset + dcil
          let srcConnectionID : ConnectionID :=
            ⟨jsSlice buf offset (offset + scil), scil⟩
          let offset := offset + scil
          match parseInitialToken buf offset type with
          | .error e => .error e
          | .ok (offset, tokens) =>
            match VLIE.decode buf offset with
            | none => .error .truncated
            | some payloadLengthV =>
              let payloadLength := payloadLengthV.value
              let payloadLengthBuffer :=
                allocCopy buf (payloadLengthV.offset - offset) offset
              let offset := payloadLengthV.offset
              let truncatedPacketNumber :=
                jsSlice buf offset (offset + pnLength)
              let offset := offset + pnLength
              let header := Header.long type destConnectionID srcConnectionID
                (payloadLength : Int) version payloadLengthBuffer
                truncatedPacketNumber 0 tokens
                (some (jsSlice buf startOffset offset))
              .ok ⟨header, offset⟩

/-- HeaderParser.parseShortHeader (header.parser.ts:213-258). -/
def parseShortHeader (buf : ByteBuf) (offset : Nat) :
    Except ParseError HeaderOffset :=
  let startOffset := offset
  match readByte buf offset with
  | none => .error .truncated
  | some b0 =>
    let firstByte : Int := (b0 : Int) - 0x40
    let offset := offset + 1
    let spinBit := jsAnd firstByte 0x20 == 0x20
    let _reserved1 := jsAnd firstByte 0x10 == 0x10
    let _reserved2 := jsAnd firstByte 0x08 == 0x08
    let keyPhaseBit := jsAnd firstByte 0x04 == 0x04
    let pnLength := (jsAnd firstByte 3).toNat + 1
    match readByte buf offset with
    | none => .error .truncated
    | some dcil =>
      let destConIDBuffer := allocCopy buf dcil offset
      let destConnectionID : ConnectionID := ⟨destConIDBuffer, dcil⟩
      let offset := offset + dcil
      let truncatedPacketNumber := jsSlice buf offset (offset + pnLength)
      let offset := offset + pnLength
      let header := Header.short destConnectionID keyPhaseBit spinBit
        truncatedPacketNumber 0 (some (jsSlice buf startOffset offset))
      .ok ⟨header, offset⟩

/-- HeaderParser.parseHeader (header.parser.ts:64-77): dispatch on the
most significant bit of the byte at the offset. -/
def parseHeader (buf : ByteBuf) (offset : Int) :
    Except ParseError HeaderOffset :=
  match readUInt8 buf offset with
  | none => .error .truncated
  | some type =>
    if type &&& 0x80 = 0x80 then
      parseLongHeader buf offset.toNat
    else
      parseShortHeader buf offset.toNat

/-- The while loop of HeaderParser.parse (header.parser.ts:36-56),
written with explicit fuel.  Each iteration that continues strictly
increases totalSize by at least 4 while requiring totalSize < buf.length,
so buf.length + 1 steps of fuel always suffice and the fuel-0 branch is
never reached from parse. -/
def parseLoop (buf : ByteBuf) (acc : List HeaderOffset) (last : HeaderOffset)
    (totalSize : Int) : Nat → Except ParseError (List HeaderOffset)
  | 0 => .ok acc
  | fuel + 1 =>
    match payloadLengthOf last.header with
    | none => .ok acc
    | some payloadLength =>
      let headerSize : Int := (last.offset : Int) - totalSize
      let totalSize2 := totalSize + payloadLength + headerSize
      if totalSize2 < (buf.length : Int) then
        match parseHeader buf (totalSize2 - 4) with
        | .error e => .error e
        | .ok headerOffset =>
          parseLoop buf (acc ++ [headerOffset]) headerOffset totalSize2 fuel
      else
        .ok acc

/-- HeaderParser.parse (header.parser.ts:23-62). -/
def parse (buf : ByteBuf) : Except ParseError (List HeaderOffset) :=
  match parseHeader buf 0 with
  | .error e => .error e
  | .ok headerOffset =>
    parseLoop buf [headerOffset] headerOffset 0 (buf.length + 1)

end HeaderParser

/- Outbound side: the packet factory (header.parser.ts:290-389).  The frame,
packet and constant classes it uses are not under src and are modelled from
the spec. -/

namespace Constants

/-- Modelled from the spec (section 6): the protocol-mandated minimum
Initial-packet size (helpers/constants.ts is not under src). -/
def INITIAL_MIN_SIZE : Nat := 1280

/-- Modelled from the spec (section 6): the fixed AEAD-expansion length
added to declared payload lengths (helpers/constants.ts is not under src;
the exact value is irrelevant to the theorems below). -/
def DEFAULT_AEAD_LENGTH : Nat := 16

/-- Modelled from the spec (section 6): the set of supported protocol
version identifiers, as 4-byte version values (helpers/constants.ts is not
under src; the exact contents are irrelevant to the theorems below). -/
def SUPPORTED_VERSIONS : List ByteBuf := [[0xFF, 0x00, 0x00, 0x14]]

end Constants

/-- Modelled from the spec (sections 2 and 3): frames are external byte
producers; a padding frame of length n serializes to n bytes, any other
frame to its serialized bytes. -/
inductive BaseFrame where
  | padding (length : Nat)
  | generic (frameType : Nat) (bytes : ByteBuf)
deriving DecidableEq

/-- Modelled from the spec: the serialized size of a frame. -/
def frameSize : BaseFrame → Nat
  | .padding length => length
  | .generic _ bytes => bytes.length

/-- Modelled from the spec: BasePacket.getFrameSizes, the total serialized
size of a packet's frames. -/
def getFrameSizes (frames : List BaseFrame) : Nat :=
  (frames.map frameSize).sum

/-- Modelled from the spec (section 6 wire layouts): the serialized size of
a header.  The header serialization code is not under src; the
payload-length field of a long header is modelled at a fixed 2-byte width
and the packet-number field at a fixed 4-byte width, so the size does not
depend on the value later stored by setPayloadLength. -/
def headerSize : Header → Nat
  | .long _ destConnectionID srcConnectionID _ version _ _ _ initialTokens _ =>
    1 + version.length + 1 + destConnectionID.bytes.length +
      srcConnectionID.bytes.length +
      (match initialTokens with
       | some tokens => 1 + tokens.length
       | none => 0) + 2 + 4
  | .short destConnectionID _ _ _ _ _ =>
    1 + 1 + destConnectionID.bytes.length + 4
  | .versionNegotiation destConnectionID srcConnectionID =>
    1 + 4 + 1 + destConnectionID.bytes.length + srcConnectionID.bytes.length

/-- LongHeader.setPayloadLength: store the payload length field. -/
def Header.setPayloadLength : Header → Int → Header
  | .long type d s _ version plb pn la tok pb, payloadLength =>
    .long type d s payloadLength version plb pn la tok pb
  | h, _ => h

/-- Modelled from the spec (section 4.3): the connection-level context the
factory reads (quicker/connection.ts is not under src).
getDestConnectionID can be undefined before negotiation. -/
structure Connection where
  destConnectionID : Option ConnectionID
  initialDestConnectionID : ConnectionID
  srcConnectionID : ConnectionID
  version : ByteBuf
  spinBit : Bool
deriving DecidableEq

/-- Modelled from the spec (section 3): an Initial packet pairs a header
with an ordered frame sequence (packet/packet/initial.ts is not under
src). -/
structure InitialPacket where
  header : Header
  frames : List BaseFrame
deriving DecidableEq

/-- Modelled from the spec: BasePacket.getSize, the total serialized size
of a packet: header plus frames. -/
def InitialPacket.getSize (packet : InitialPacket) : Nat :=
  headerSize packet.header + getFrameSizes packet.frames

/-- Modelled from the spec (section 3): a Handshake packet
(packet/packet/handshake.ts is not under src). -/
structure HandshakePacket where
  header : Header
  frames : List BaseFrame
deriving DecidableEq

/-- Modelled from the spec (section 3): a Protected 0-RTT packet
(packet/packet/protected.0rtt.ts is not under src). -/
structure Protected0RTTPacket where
  header : Header
  frames : List BaseFrame
deriving DecidableEq

/-- Modelled from the source call site (header.parser.ts:305): the
version negotiation header class is not under src; it stores the three
constructor arguments the factory passes, the first being the freshly
drawn random value (the destination connection ID can be undefined, since
the factory reads it without a definedness check). -/
structure VersionNegotiationFactoryHeader where
  randomValue : Nat
  destConnectionID : Option ConnectionID
  srcConnectionID : ConnectionID
deriving DecidableEq

/-- Modelled from the spec (section 3): a Version Negotiation packet pairs
its header with the list of offered versions. -/
structure VersionNegotiationPacket where
  header : VersionNegotiationFactoryHeader
  versions : List ByteBuf
deriving DecidableEq

namespace PacketFactory

/-- The long header built at the start of PacketFactory.createInitialPacket
(header.parser.ts:321-323), before any padding or payload-length setting:
LongHeader(Initial, dstConnectionID, srcConnectionID, PacketNumber(0),
Bignum(0), version). -/
def initialHeader (connection : Connection) : Header :=
  let dstConnectionID :=
    match connection.destConnectionID with
    | none => connection.initialDestConnectionID
    | some d => d
  Header.long LongHeaderType.Initial dstConnectionID
    connection.srcConnectionID 0 connection.version [] [] 0 none none

/-- PacketFactory.createInitialPacket (header.parser.ts:318-343): build the
Initial header, pad with a single padding frame up to INITIAL_MIN_SIZE when
the packet is smaller, then set the payload length to the frame sizes plus
the AEAD expansion. -/
def createInitialPacket (connection : Connection) (frames : List BaseFrame) :
    InitialPacket :=
  let header := initialHeader connection
  let initial : InitialPacket := ⟨header, frames⟩
  let size := initial.getSize
  let initial :=
    if size < Constants.INITIAL_MIN_SIZE then
      InitialPacket.mk header
        (frames ++ [BaseFrame.padding (Constants.INITIAL_MIN_SIZE - size)])
    else initial
  ⟨initial.header.setPayloadLength
      ((getFrameSizes initial.frames : Int) +
        (Constants.DEFAULT_AEAD_LENGTH : Int)),
   initial.frames⟩

/-- PacketFactory.createHandshakePacket (header.parser.ts:362-368):
LongHeader(Handshake, dstConnectionID, srcConnectionID, PacketNumber(-1),
Bignum(-1), version), then payload length := frame sizes + AEAD
expansion. -/
def createHandshakePacket (connection : Connection)
    (frames : List BaseFrame) : HandshakePacket :=
  let dstConnectionID :=
    match connection.destConnectionID with
    | none => connection.initialDestConnectionID
    | some d => d
  let header := Header.long LongHeaderType.Handshake dstConnectionID
    connection.srcConnectionID (-1) connection.version [] [] 0 none none
  ⟨header.setPayloadLength
      ((getFrameSizes frames : Int) + (Constants.DEFAULT_AEAD_LENGTH : Int)),
   frames⟩

/-- PacketFactory.createProtected0RTTPacket (header.parser.ts:370-377):
LongHeader(Protected0RTT, initialDestConnectionID, srcConnectionID,
PacketNumber(-1), Bignum(-1), version), then payload length := frame sizes
+ AEAD expansion. -/
def createProtected0RTTPacket (connection : Connection)
    (frames : List BaseFrame) : Protected0RTTPacket :=
  let header := Header.long LongHeaderType.Protected0RTT
    connection.initialDestConnectionID connection.srcConnectionID (-1)
    connection.version [] [] 0 none none
  ⟨header.setPayloadLength
      ((getFrameSizes frames : Int) + (Constants.DEFAULT_AEAD_LENGTH : Int)),
   frames⟩

/-- PacketFactory.createVersionNegotiationPacket (header.parser.ts:297-311).
The fresh draw Math.floor(Math.random() * 128) is modelled as the explicit
argument randomDraw (a value in [0, 128)); it is passed as the first
constructor argument of the version negotiation header. -/
def createVersionNegotiationPacket (connection : Connection)
    (randomDraw : Nat) : VersionNegotiationPacket :=
  let header : VersionNegotiationFactoryHeader :=
    ⟨randomDraw, connection.destConnectionID,
     connection.initialDestConnectionID⟩
  ⟨header, Constants.SUPPORTED_VERSIONS⟩

end PacketFactory

/- Helper lemmas about the JS integer operations. -/

theorem toInt32_small (x : Int) (h1 : -2147483648 ≤ x) (h2 : x < 2147483648) :
    toInt32 x = x := by
  simp only [toInt32]
  split <;> omega

theorem jsShr_small (x : Int) (h1 : -2147483648 ≤ x) (h2 : x < 2147483648) :
    jsShr x 4 = x / 16 := by
  simp only [jsShr, toInt32_small x h1 h2]
  rw [Int.fdiv_eq_ediv _ (by norm_num)]
  norm_num

theorem jsAnd_three (x : Int) : jsAnd x 3 = x % 4 := by
  simp only [jsAnd]
  have h3 : ((3 : Int) % 4294967296).toNat = 3 := by decide
  rw [h3]
  have hland : Nat.land (x % 4294967296).toNat 3 = (x % 4294967296).toNat % 4 := by
    have h := Nat.and_pow_two_sub_one_eq_mod (x % 4294967296).toNat 2
    norm_num at h
    exact h
  rw [hland]
  rw [Int.ofNat_eq_natCast]
  rw [toInt32_small _ (by omega) (by omega)]
  omega

set_option maxRecDepth 40000 in
theorem byte_and_128_of_ge : ∀ b, b < 256 → 128 ≤ b → b &&& 128 = 128 := by
  decide

set_option maxRecDepth 40000 in
theorem byte_and_128_of_lt : ∀ b, b < 128 → ¬ (b &&& 128 = 128) := by
  decide

theorem byte_shiftRight_four (b : Nat) (h : b < 256) : b >>> 4 = b / 16 := by
  rw [Nat.shiftRight_eq_div_pow]

theorem byte_and_fifteen (b : Nat) : b &&& 15 = b % 16 := by
  have := Nat.and_pow_two_sub_one_eq_mod b 4
  norm_num at this
  exact this

theorem byte_and_63 (b : Nat) : b &&& 63 = b % 64 := by
  have := Nat.and_pow_two_sub_one_eq_mod b 6
  norm_num at this
  exact this

/-- C6: for every connection-ID-length nibble code in the documented range,
the decoded length is 0 when the code is 0 and code+3 when nonzero, so the
decoded length is always 0 or in [4,18]. -/
theorem cil_length_law (code : Nat) (hcode : code ≤ 15) :
    (code = 0 → decodeCIL code = 0) ∧
    (code ≠ 0 → decodeCIL code = code + 3) ∧
    (decodeCIL code = 0 ∨ (4 ≤ decodeCIL code ∧ decodeCIL code ≤ 18)) := by
  unfold decodeCIL
  rcases Nat.eq_zero_or_pos code with h | h
  · subst h
    simp
  · rw [if_neg (by omega)]
    exact ⟨by omega, fun _ => rfl, Or.inr ⟨by omega, by omega⟩⟩

/-- Witness for cil_length_law at code 7. -/
theorem cil_length_law_witness :
    (7 = 0 → decodeCIL 7 = 0) ∧
    (7 ≠ 0 → decodeCIL 7 = 7 + 3) ∧
    (decodeCIL 7 = 0 ∨ (4 ≤ decodeCIL 7 ∧ decodeCIL 7 ≤ 18)) :=
  cil_length_law 7 (by decide)

/-- C10: createVersionNegotiationPacket passes the freshly drawn random
value in [0,128) as the first constructor argument of the header, so two
invocations on the same connection with different draws return packets with
different headers: the factory is not deterministic. -/
theorem createVersionNegotiation_nondeterministic (connection : Connection)
    (r1 r2 : Nat) (hr1 : r1 < 128) (hr2 : r2 < 128) (hne : r1 ≠ r2) :
    (PacketFactory.createVersionNegotiationPacket connection r1).header.randomValue
        = r1 ∧
    PacketFactory.createVersionNegotiationPacket connection r1 ≠
      PacketFactory.createVersionNegotiationPacket connection r2 := by
  refine ⟨rfl, fun h => hne ?_⟩
  exact congrArg (fun p => p.header.randomValue) h

/-- C3: a buffer whose first byte selects the long-header path (top bit
set, long-header marker bits 11) and whose type bits equal Retry — i.e.
first byte in [0xF0, 0xFF] — always parses to the protocol-violation error
and produces no HeaderOffset. -/
theorem retry_rejection (buf : ByteBuf) (b0 : Nat) (hhead : buf.head? = some b0)
    (hlow : 0xF0 ≤ b0) (hhigh : b0 ≤ 0xFF) :
    HeaderParser.parse buf = .error ParseError.protocolViolation := by
  obtain ⟨tail, rfl⟩ : ∃ tail, buf = b0 :: tail := by
    cases buf with
    | nil => simp at hhead
    | cons x xs =>
      simp only [List.head?_cons, Option.some.injEq] at hhead
      exact ⟨xs, by rw [hhead]⟩
  have hread : readUInt8 (b0 :: tail) 0 = some b0 := by
    simp [readUInt8]
  have hland : b0 &&& 128 = 128 := byte_and_128_of_ge b0 (by omega) (by omega)
  have htype : jsShr ((b0 : Int) - 192) 4 = 3 := by
    rw [jsShr_small _ (by omega) (by omega)]
    omega
  have hrb : readByte (b0 :: tail) 0 = some b0 := by simp [readByte]
  have hlong : HeaderParser.parseLongHeader (b0 :: tail) 0 =
      .error ParseError.protocolViolation := by
    simp only [HeaderParser.parseLongHeader, hrb]
    norm_num only
    rw [htype]
    simp [LongHeaderType.Retry]
  simp only [HeaderParser.parse, HeaderParser.parseHeader, hread, hland,
    if_pos, Int.toNat_zero, hlong]

/-- Witness for retry_rejection on the concrete buffer F5 01 02 03. -/
theorem retry_rejection_witness :
    HeaderParser.parse [0xF5, 1, 2, 3] = .error ParseError.protocolViolation :=
  retry_rejection [0xF5, 1, 2, 3] 0xF5 (by decide) (by decide) (by decide)

theorem headerSize_setPayloadLength (h : Header) (x : Int) :
    headerSize (h.setPayloadLength x) = headerSize h := by
  cases h <;> rfl

theorem payloadLengthOf_setPayloadLength_long (t : Int) (d s : ConnectionID)
    (pl : Int) (v plb pn : ByteBuf) (la : Nat) (tok pb : Option ByteBuf)
    (x : Int) :
    payloadLengthOf ((Header.long t d s pl v plb pn la tok pb).setPayloadLength x)
      = some x := rfl

theorem getFrameSizes_append_padding (frames : List BaseFrame) (k : Nat) :
    getFrameSizes (frames ++ [BaseFrame.padding k]) = getFrameSizes frames + k := by
  simp [getFrameSizes, frameSize]

/-- C4: with frames assembling below the configured minimum,
createInitialPacket returns a packet whose total serialized size is exactly
the minimum; with frames already at or above the minimum, the frame list is
returned unchanged (no padding frame is added). -/
theorem createInitialPacket_padding (connection : Connection)
    (frames : List BaseFrame) :
    ((InitialPacket.mk (PacketFactory.initialHeader connection) frames).getSize
        < Constants.INITIAL_MIN_SIZE →
      (PacketFactory.createInitialPacket connection frames).getSize =
        Constants.INITIAL_MIN_SIZE) ∧
    (Constants.INITIAL_MIN_SIZE ≤
        (InitialPacket.mk (PacketFactory.initialHeader connection) frames).getSize →
      (PacketFactory.createInitialPacket connection frames).frames = frames) := by
  have hframes : (PacketFactory.createInitialPacket connection frames).frames =
      if (InitialPacket.mk (PacketFactory.initialHeader connection)
            frames).getSize < Constants.INITIAL_MIN_SIZE then
        frames ++ [BaseFrame.padding (Constants.INITIAL_MIN_SIZE -
          (InitialPacket.mk (PacketFactory.initialHeader connection)
            frames).getSize)]
      else frames := by
    unfold PacketFactory.createInitialPacket
    dsimp only
    split <;> rfl
  have hheader : headerSize
      (PacketFactory.createInitialPacket connection frames).header =
      headerSize (PacketFactory.initialHeader connection) := by
    unfold PacketFactory.createInitialPacket
    dsimp only
    split <;> rw [headerSize_setPayloadLength]
  have hget : ∀ p : InitialPacket,
      p.getSize = headerSize p.header + getFrameSizes p.frames := fun _ => rfl
  constructor
  · intro hlt
    have h1 := hframes
    rw [if_pos hlt] at h1
    simp only [hget] at h1 hlt ⊢
    rw [hheader, h1, getFrameSizes_append_padding]
    omega
  · intro hge
    have h1 := hframes
    rw [if_neg (by omega)] at h1
    exact h1

/-- Witness for createInitialPacket_padding: a small concrete connection
and frame list below the minimum, and a large one at the minimum. -/
theorem createInitialPacket_padding_witness :
    ((InitialPacket.mk (PacketFactory.initialHeader
        ⟨none, ⟨[1, 2, 3, 4], 4⟩, ⟨[5, 6, 7, 8], 4⟩, [0, 0, 0, 1], false⟩)
        [BaseFrame.generic 6 [9, 9]]).getSize < Constants.INITIAL_MIN_SIZE ∧
      (PacketFactory.createInitialPacket
        ⟨none, ⟨[1, 2, 3, 4], 4⟩, ⟨[5, 6, 7, 8], 4⟩, [0, 0, 0, 1], false⟩
        [BaseFrame.generic 6 [9, 9]]).getSize = Constants.INITIAL_MIN_SIZE) ∧
    (Constants.INITIAL_MIN_SIZE ≤
        (InitialPacket.mk (PacketFactory.initialHeader
          ⟨none, ⟨[1, 2, 3, 4], 4⟩, ⟨[5, 6, 7, 8], 4⟩, [0, 0, 0, 1], false⟩)
          [BaseFrame.padding 1400]).getSize ∧
      (PacketFactory.createInitialPacket
        ⟨none, ⟨[1, 2, 3, 4], 4⟩, ⟨[5, 6, 7, 8], 4⟩, [0, 0, 0, 1], false⟩
        [BaseFrame.padding 1400]).frames = [BaseFrame.padding 1400]) :=
  ⟨⟨by decide, (createInitialPacket_padding _ _).1 (by decide)⟩,
   ⟨by decide, (createInitialPacket_padding _ _).2 (by decide)⟩⟩

/-- C8: createInitialPacket, createHandshakePacket and
createProtected0RTTPacket each set the header's payload-length field to the
total serialized size of the packet's frames plus the AEAD-expansion
constant. -/
theorem createPacket_payloadLength_aead (connection : Connection)
    (frames : List BaseFrame) :
    payloadLengthOf (PacketFactory.createInitialPacket connection frames).header
      = some ((getFrameSizes
          (PacketFactory.createInitialPacket connection frames).frames : Int) +
          (Constants.DEFAULT_AEAD_LENGTH : Int)) ∧
    payloadLengthOf (PacketFactory.createHandshakePacket connection frames).header
      = some ((getFrameSizes
          (PacketFactory.createHandshakePacket connection frames).frames : Int) +
          (Constants.DEFAULT_AEAD_LENGTH : Int)) ∧
    payloadLengthOf
        (PacketFactory.createProtected0RTTPacket connection frames).header
      = some ((getFrameSizes
          (PacketFactory.createProtected0RTTPacket connection frames).frames : Int) +
          (Constants.DEFAULT_AEAD_LENGTH : Int)) := by
  refine ⟨?_, ?_, ?_⟩
  · simp only [PacketFactory.createInitialPacket, PacketFactory.initialHeader]
    split <;> rfl
  · rfl
  · rfl

/-- Witness for createVersionNegotiation_nondeterministic at draws 0 and 1. -/
theorem createVersionNegotiation_nondeterministic_witness :
    (PacketFactory.createVersionNegotiationPacket
        ⟨none, ⟨[], 0⟩, ⟨[], 0⟩, [0, 0, 0, 1], false⟩ 0).header.randomValue = 0 ∧
    PacketFactory.createVersionNegotiationPacket
        ⟨none, ⟨[], 0⟩, ⟨[], 0⟩, [0, 0, 0, 1], false⟩ 0 ≠
      PacketFactory.createVersionNegotiationPacket
        ⟨none, ⟨[], 0⟩, ⟨[], 0⟩, [0, 0, 0, 1], false⟩ 1 :=
  createVersionNegotiation_nondeterministic _ 0 1 (by decide) (by decide)
    (by decide)

/- Shape lemmas about successful parses, proved by case analysis over the
parser definitions. -/

theorem parseVersionNegotiationHeader_ok (buf : ByteBuf) (off : Nat) (t : Int)
    (r : HeaderOffset)
    (h : HeaderParser.parseVersionNegotiationHeader buf off t = .ok r) :
    ∃ d s, r.header = Header.versionNegotiation d s := by
  unfold HeaderParser.parseVersionNegotiationHeader at h
  split at h
  · exact absurd h (by simp)
  · simp only [Except.ok.injEq] at h
    subst h
    exact ⟨_, _, rfl⟩

theorem parseLongHeader_ok_fields (buf : ByteBuf) (off : Nat) (r : HeaderOffset)
    (h : HeaderParser.parseLongHeader buf off = .ok r) :
    (∃ d s, r.header = Header.versionNegotiation d s) ∨
    (largestAckedOf r.header = some 0 ∧
     parsedBufferOf r.header = some (jsSlice buf off r.offset)) := by
  unfold HeaderParser.parseLongHeader at h
  dsimp only at h
  repeat' split at h
  all_goals try (right; simp only [Except.ok.injEq] at h; subst h; exact ⟨rfl, rfl⟩)
  all_goals try (exact Or.inl (parseVersionNegotiationHeader_ok _ _ _ _ h))
  all_goals simp at h

theorem parseShortHeader_ok_fields (buf : ByteBuf) (off : Nat)
    (r : HeaderOffset)
    (h : HeaderParser.parseShortHeader buf off = .ok r) :
    largestAckedOf r.header = some 0 ∧
    parsedBufferOf r.header = some (jsSlice buf off r.offset) ∧
    isShortHeader r.header = true := by
  unfold HeaderParser.parseShortHeader at h
  dsimp only at h
  repeat' split at h
  all_goals try (simp only [Except.ok.injEq] at h; subst h; exact ⟨rfl, rfl, rfl⟩)
  all_goals simp at h

theorem parseHeader_ok_nonneg (buf : ByteBuf) (off : Int) (r : HeaderOffset)
    (h : HeaderParser.parseHeader buf off = .ok r) : 0 ≤ off := by
  unfold HeaderParser.parseHeader at h
  split at h
  · exact absurd h (by simp)
  · next heq =>
    unfold readUInt8 at heq
    split at heq
    · exact absurd heq (by simp)
    · omega

theorem parseHeader_toNat (buf : ByteBuf) (off : Int) (r : HeaderOffset)
    (h : HeaderParser.parseHeader buf off = .ok r) :
    HeaderParser.parseHeader buf ((off.toNat : Nat) : Int) = .ok r := by
  rw [Int.toNat_of_nonneg (parseHeader_ok_nonneg _ _ _ h)]
  exact h

theorem parseHeader_ok_fields (buf : ByteBuf) (off : Int) (r : HeaderOffset)
    (h : HeaderParser.parseHeader buf off = .ok r) :
    (∃ d s, r.header = Header.versionNegotiation d s) ∨
    (largestAckedOf r.header = some 0 ∧
     parsedBufferOf r.header = some (jsSlice buf off.toNat r.offset)) := by
  unfold HeaderParser.parseHeader at h
  split at h
  · exact absurd h (by simp)
  · split at h
    · exact parseLongHeader_ok_fields _ _ _ h
    · exact Or.inr ⟨(parseShortHeader_ok_fields _ _ _ h).1,
        (parseShortHeader_ok_fields _ _ _ h).2.1⟩

theorem parseLoop_provenance (buf : ByteBuf) :
    ∀ fuel acc last ts res,
      HeaderParser.parseLoop buf acc last ts fuel = .ok res →
      ∀ x ∈ res, x ∈ acc ∨
        ∃ n : Nat, HeaderParser.parseHeader buf (n : Int) = .ok x := by
  intro fuel
  induction fuel with
  | zero =>
    intro acc last ts res h x hx
    unfold HeaderParser.parseLoop at h
    simp only [Except.ok.injEq] at h
    subst h
    exact Or.inl hx
  | succ fuel ih =>
    intro acc last ts res h x hx
    unfold HeaderParser.parseLoop at h
    dsimp only at h
    split at h
    · simp only [Except.ok.injEq] at h
      subst h
      exact Or.inl hx
    · split at h
      · split at h
        · exact absurd h (by simp)
        · next ho heq =>
          rcases ih _ _ _ _ h x hx with hin | hex
          · rcases List.mem_append.mp hin with hin | hin
            · exact Or.inl hin
            · obtain rfl := List.mem_singleton.mp hin
              exact Or.inr ⟨_, parseHeader_toNat _ _ _ heq⟩
          · exact Or.inr hex
      · simp only [Except.ok.injEq] at h
        subst h
        exact Or.inl hx

theorem parse_provenance (buf : ByteBuf) (res : List HeaderOffset)
    (h : HeaderParser.parse buf = .ok res) :
    ∀ x ∈ res, ∃ n : Nat, HeaderParser.parseHeader buf (n : Int) = .ok x := by
  unfold HeaderParser.parse at h
  split at h
  · exact absurd h (by simp)
  · next h0 heq0 =>
    intro x hx
    rcases parseLoop_provenance buf _ _ _ _ _ h x hx with hin | hex
    · exact ⟨0, by rw [List.mem_singleton.mp hin]; exact heq0⟩
    · exact hex

/-- C9: every successfully parsed LongHeader or ShortHeader (any entry of a
successful parse that is not a VersionNegotiationHeader) has its truncated
packet number attached against the fixed placeholder last-acknowledged
packet number zero, not the true last-observed packet number. -/
theorem truncatedPn_zero_placeholder (buf : ByteBuf)
    (res : List HeaderOffset) (h : HeaderParser.parse buf = .ok res) :
    ∀ x ∈ res, isVersionNegotiationHeader x.header = false →
      largestAckedOf x.header = some 0 := by
  intro x hx hvn
  obtain ⟨n, hn⟩ := parse_provenance buf res h x hx
  rcases parseHeader_ok_fields _ _ _ hn with ⟨d, s, hEq⟩ | ⟨hLA, _⟩
  · rw [hEq] at hvn
    simp [isVersionNegotiationHeader] at hvn
  · exact hLA

/-- Witness for truncatedPn_zero_placeholder on the 3-byte short packet
40 01 09. -/
theorem truncatedPn_zero_placeholder_witness :
    largestAckedOf (Header.short ⟨[1], 1⟩ false false [9] 0 (some [0x40, 1, 9]))
      = some 0 :=
  truncatedPn_zero_placeholder [0x40, 1, 9]
    [⟨Header.short ⟨[1], 1⟩ false false [9] 0 (some [0x40, 1, 9]), 3⟩]
    (by rfl)
    ⟨Header.short ⟨[1], 1⟩ false false [9] 0 (some [0x40, 1, 9]), 3⟩
    (by decide) (by decide)

/-- C5 (amended): every LongHeader and ShortHeader returned by the parser
carries a captured raw-byte span equal to buffer[startOffset:offset); the
parser attaches no span to VersionNegotiationHeaders. -/
theorem parsedBuffer_span (buf : ByteBuf) (res : List HeaderOffset)
    (h : HeaderParser.parse buf = .ok res) :
    ∀ x ∈ res, isVersionNegotiationHeader x.header = false →
      ∃ start : Nat, HeaderParser.parseHeader buf (start : Int) = .ok x ∧
        parsedBufferOf x.header = some (jsSlice buf start x.offset) := by
  intro x hx hvn
  obtain ⟨n, hn⟩ := parse_provenance buf res h x hx
  rcases parseHeader_ok_fields _ _ _ hn with ⟨d, s, hEq⟩ | ⟨_, hPB⟩
  · rw [hEq] at hvn
    simp [isVersionNegotiationHeader] at hvn
  · refine ⟨n, hn, ?_⟩
    rwa [Int.toNat_natCast] at hPB

/-- Witness for parsedBuffer_span on the 3-byte short packet 40 01 09. -/
theorem parsedBuffer_span_witness :
    ∃ start : Nat, HeaderParser.parseHeader [0x40, 1, 9] (start : Int) =
        .ok ⟨Header.short ⟨[1], 1⟩ false false [9] 0 (some [0x40, 1, 9]), 3⟩ ∧
      parsedBufferOf
          (Header.short ⟨[1], 1⟩ false false [9] 0 (some [0x40, 1, 9]))
        = some (jsSlice [0x40, 1, 9] start 3) :=
  parsedBuffer_span [0x40, 1, 9]
    [⟨Header.short ⟨[1], 1⟩ false false [9] 0 (some [0x40, 1, 9]), 3⟩]
    (by rfl)
    ⟨Header.short ⟨[1], 1⟩ false false [9] 0 (some [0x40, 1, 9]), 3⟩
    (by decide) (by decide)

/-- Counterexample to C5 as stated: the version negotiation header parsed
from C0 00 00 00 00 00 is returned with no captured raw-byte span at all
(setParsedBuffer is never called on it), so its span does not equal
buffer[startOffset:offset) = the whole 6-byte buffer. -/
theorem parsedBuffer_span_vn_counterexample :
    HeaderParser.parse [0xC0, 0, 0, 0, 0, 0] =
      .ok [⟨Header.versionNegotiation ⟨[], 0⟩ ⟨[], 0⟩, 6⟩] ∧
    parsedBufferOf (Header.versionNegotiation ⟨[], 0⟩ ⟨[], 0⟩) ≠
      some (jsSlice [0xC0, 0, 0, 0, 0, 0] 0 6) :=
  ⟨by rfl, by decide⟩

theorem isShortHeader_payloadLength (h : Header) (hs : isShortHeader h = true) :
    payloadLengthOf h = none := by
  cases h with
  | short d k s pn la pb => rfl
  | long t d s pl v plb pn la tok pb => simp [isShortHeader] at hs
  | versionNegotiation d s => simp [isShortHeader] at hs

theorem parseLoop_chain (buf : ByteBuf) :
    ∀ fuel acc last ts res,
      HeaderParser.parseLoop buf acc last ts fuel = .ok res →
      acc.getLast? = some last →
      (∀ i (hi : i + 1 < acc.length),
        payloadLengthOf (acc.get ⟨i, by omega⟩).header ≠ none) →
      (∀ i (hi : i + 1 < res.length),
        payloadLengthOf (res.get ⟨i, by omega⟩).header ≠ none) := by
  intro fuel
  induction fuel with
  | zero =>
    intro acc last ts res h hlast hacc
    unfold HeaderParser.parseLoop at h
    simp only [Except.ok.injEq] at h
    subst h
    exact hacc
  | succ fuel ih =>
    intro acc last ts res h hlast hacc
    unfold HeaderParser.parseLoop at h
    dsimp only at h
    split at h
    · simp only [Except.ok.injEq] at h
      subst h
      exact hacc
    · next pl hpl =>
      split at h
      · split at h
        · exact absurd h (by simp)
        · next ho heq =>
          refine ih _ _ _ _ h (List.getLast?_concat _) ?_
          intro i hi
          simp only [List.length_append, List.length_singleton] at hi
          have hilt : i < acc.length := by omega
          have hbound : i < (acc ++ [ho]).length := by
            simp only [List.length_append, List.length_singleton]
            omega
          have hgeti : ((acc ++ [ho]).get ⟨i, hbound⟩) = acc.get ⟨i, hilt⟩ := by
            rw [List.get_eq_getElem, List.get_eq_getElem]
            exact List.getElem_append_left hilt
          rw [hgeti]
          rcases Nat.lt_or_ge (i + 1) acc.length with hc | hc
          · exact hacc i hc
          · have hieq : i = acc.length - 1 := by omega
            subst hieq
            have hg : acc[acc.length - 1]? = some last := by
              rw [← List.getLast?_eq_getElem?]
              exact hlast
            rw [List.getElem?_eq_getElem (by omega)] at hg
            simp only [Option.some.injEq] at hg
            rw [List.get_eq_getElem, hg, hpl]
            simp
      · simp only [Except.ok.injEq] at h
        subst h
        exact hacc

theorem parse_shortHeader_terminal (buf : ByteBuf) (res : List HeaderOffset)
    (h : HeaderParser.parse buf = .ok res) :
    ∀ i (hi : i + 1 < res.length),
      isShortHeader (res.get ⟨i, by omega⟩).header = false := by
  intro i hi
  have hchain : ∀ j (hj : j + 1 < res.length),
      payloadLengthOf (res.get ⟨j, by omega⟩).header ≠ none := by
    unfold HeaderParser.parse at h
    split at h
    · exact absurd h (by simp)
    · next h0 heq0 =>
      exact parseLoop_chain buf _ _ _ _ _ h rfl
        (by intro j hj; simp at hj)
  by_contra hshort
  simp only [Bool.not_eq_false] at hshort
  exact hchain i hi (isShortHeader_payloadLength _ hshort)

/-- Big-endian byte encoding of a value below 256^n, width n. -/
def writeBE : Nat → Nat → ByteBuf
  | 0, _ => []
  | n + 1, v => v / 256 ^ n :: writeBE n (v % 256 ^ n)

/-- The variable-length integer encoding of the spec (section 6): width
2^e bytes (e < 4), top two bits of the first byte carrying e, the rest the
big-endian value (value < 2^(8*2^e - 2)). -/
def vlieEncode (e v : Nat) : ByteBuf :=
  (64 * e + v / 256 ^ (2 ^ e - 1)) :: writeBE (2 ^ e - 1) (v % 256 ^ (2 ^ e - 1))

theorem writeBE_length (n v : Nat) : (writeBE n v).length = n := by
  induction n generalizing v with
  | zero => rfl
  | succ n ih => simp [writeBE, ih]

theorem vlieEncode_length (e v : Nat) :
    (vlieEncode e v).length = 2 ^ e := by
  have h1 : 1 ≤ 2 ^ e := Nat.one_le_two_pow
  simp [vlieEncode, writeBE_length]
  omega

theorem readBE_foldl (l : ByteBuf) (a : Nat) :
    l.foldl (fun a b => a * 256 + b) a = a * 256 ^ l.length + readBE l := by
  induction l generalizing a with
  | nil => simp [readBE]
  | cons b l ih =>
    simp only [List.length_cons, readBE, List.foldl_cons]
    rw [ih, ih]
    ring

theorem readBE_cons (b : Nat) (l : ByteBuf) :
    readBE (b :: l) = b * 256 ^ l.length + readBE l := by
  unfold readBE
  simp only [List.foldl_cons]
  rw [readBE_foldl]
  simp [readBE]

theorem readBE_writeBE (n v : Nat) (hv : v < 256 ^ n) :
    readBE (writeBE n v) = v := by
  induction n generalizing v with
  | zero =>
    simp [writeBE, readBE]
    omega
  | succ n ih =>
    rw [writeBE, readBE_cons, writeBE_length, ih _ (Nat.mod_lt _ (by positivity))]
    have h1 := Nat.div_add_mod v (256 ^ n)
    have h2 : v / 256 ^ n * 256 ^ n = 256 ^ n * (v / 256 ^ n) := Nat.mul_comm _ _
    omega

theorem vlie_decode_encode (buf : ByteBuf) (q e v : Nat) (tail : ByteBuf)
    (he : e < 4) (hv : v < 2 ^ (8 * 2 ^ e - 2)) (hq : q ≤ buf.length)
    (hdrop : buf.drop q = vlieEncode e v ++ tail) :
    VLIE.decode buf q = some ⟨v, q + 2 ^ e⟩ := by
  have hw1 : 1 ≤ 2 ^ e := Nat.one_le_two_pow
  have hvb : v < 64 * 256 ^ (2 ^ e - 1) := by
    have h8 : 8 * 2 ^ e - 2 = 8 * (2 ^ e - 1) + 6 := by omega
    have h256 : (256 : Nat) ^ (2 ^ e - 1) = 2 ^ (8 * (2 ^ e - 1)) := by
      rw [show (256 : Nat) = 2 ^ 8 from rfl, ← pow_mul]
    calc v < 2 ^ (8 * 2 ^ e - 2) := hv
    _ = 2 ^ (8 * (2 ^ e - 1)) * 2 ^ 6 := by rw [h8, pow_add]
    _ = 64 * 256 ^ (2 ^ e - 1) := by rw [h256]; ring
  have hx : v / 256 ^ (2 ^ e - 1) < 64 :=
    (Nat.div_lt_iff_lt_mul (by positivity)).mpr (by omega)
  have hb0 : buf[q]? = some (64 * e + v / 256 ^ (2 ^ e - 1)) := by
    have h0 := List.getElem?_drop buf q 0
    rw [Nat.add_zero] at h0
    rw [← h0, hdrop]
    simp [vlieEncode]
  have hlen : buf.length = q + 2 ^ e + tail.length := by
    have h1 := congrArg List.length hdrop
    rw [List.length_drop, List.length_append, vlieEncode_length] at h1
    omega
  have hws : jsSlice buf (q + 1) (q + 2 ^ e) =
      writeBE (2 ^ e - 1) (v % 256 ^ (2 ^ e - 1)) := by
    unfold jsSlice
    have h1 : buf.drop (q + 1) =
        writeBE (2 ^ e - 1) (v % 256 ^ (2 ^ e - 1)) ++ tail := by
      rw [← List.drop_drop 1 q, hdrop]
      simp [vlieEncode]
    rw [h1, show q + 2 ^ e - (q + 1) = 2 ^ e - 1 by omega]
    exact List.take_left' (writeBE_length _ _)
  unfold VLIE.decode
  rw [hb0]
  have hshift : (64 * e + v / 256 ^ (2 ^ e - 1)) >>> 6 = e := by
    rw [Nat.shiftRight_eq_div_pow, show (2 : Nat) ^ 6 = 64 from rfl]
    have hx2 := hx
    generalize v / 256 ^ (2 ^ e - 1) = x at hx2 ⊢
    omega
  have hand : (64 * e + v / 256 ^ (2 ^ e - 1)) &&& 63 = v / 256 ^ (2 ^ e - 1) := by
    rw [byte_and_63]
    have hx2 := hx
    generalize v / 256 ^ (2 ^ e - 1) = x at hx2 ⊢
    omega
  dsimp only
  rw [hshift, hand, hws]
  rw [if_pos (by omega)]
  have hval : readBE (v / 256 ^ (2 ^ e - 1) ::
      writeBE (2 ^ e - 1) (v % 256 ^ (2 ^ e - 1))) = v := by
    rw [readBE_cons, writeBE_length, readBE_writeBE _ _ (Nat.mod_lt _ (by positivity))]
    have h1 := Nat.div_add_mod v (256 ^ (2 ^ e - 1))
    have h2 : v / 256 ^ (2 ^ e - 1) * 256 ^ (2 ^ e - 1) =
        256 ^ (2 ^ e - 1) * (v / 256 ^ (2 ^ e - 1)) := Nat.mul_comm _ _
    omega
  rw [hval]

/-- C2 (amended): a buffer whose first byte has the long-header bit set and
whose 4-byte version field is all zero is always routed to
version-negotiation parsing regardless of the type bits, EXCEPT when the
type bits equal Retry (first byte 0xF0-0xFF), where the protocol-violation
error is raised before the version field is ever read; the returned
VersionNegotiationHeader carries no packet number and no payload length. -/
theorem version_negotiation_sentinel (b0 cl : Nat) (rest : ByteBuf)
    (hb : b0 < 256) (hlong : b0 &&& 0x80 = 0x80) (hnotretry : b0 < 0xF0) :
    ∃ dcid scid offEnd,
      HeaderParser.parse (b0 :: 0 :: 0 :: 0 :: 0 :: cl :: rest) =
        .ok [⟨Header.versionNegotiation dcid scid, offEnd⟩] ∧
      payloadLengthOf (Header.versionNegotiation dcid scid) = none ∧
      largestAckedOf (Header.versionNegotiation dcid scid) = none := by
  set buf := b0 :: 0 :: 0 :: 0 :: 0 :: cl :: rest with hbufdef
  set dcid : ConnectionID :=
    ⟨jsSlice buf 6 (6 + decodeCIL (cl >>> 4)), decodeCIL (cl >>> 4)⟩ with hdcid
  set scid : ConnectionID :=
    ⟨jsSlice buf (6 + decodeCIL (cl >>> 4))
        (6 + decodeCIL (cl >>> 4) + decodeCIL (cl &&& 15)),
     decodeCIL (cl &&& 15)⟩ with hscid
  have hvn : ∀ t : Int, HeaderParser.parseVersionNegotiationHeader buf 5 t =
      .ok ⟨Header.versionNegotiation dcid scid,
        6 + decodeCIL (cl >>> 4) + decodeCIL (cl &&& 15)⟩ := by
    intro t
    unfold HeaderParser.parseVersionNegotiationHeader
    have h5 : readByte buf 5 = some cl := by simp [readByte, hbufdef]
    rw [h5]
  have htype : ¬ jsShr ((b0 : Int) - 192) 4 = LongHeaderType.Retry := by
    rw [jsShr_small _ (by omega) (by omega)]
    simp only [LongHeaderType.Retry]
    omega
  have hlh : HeaderParser.parseLongHeader buf 0 =
      .ok ⟨Header.versionNegotiation dcid scid,
        6 + decodeCIL (cl >>> 4) + decodeCIL (cl &&& 15)⟩ := by
    unfold HeaderParser.parseLongHeader
    have h0 : readByte buf 0 = some b0 := by simp [readByte, hbufdef]
    rw [h0]
    dsimp only
    rw [if_neg htype]
    have hver : isVersionNegotiationFlag (jsSlice buf (0 + 1) (0 + 1 + 4)) = true := by
      simp [jsSlice, hbufdef, isVersionNegotiationFlag]
    rw [if_pos hver]
    norm_num only
    exact hvn _
  have hph : HeaderParser.parseHeader buf 0 =
      .ok ⟨Header.versionNegotiation dcid scid,
        6 + decodeCIL (cl >>> 4) + decodeCIL (cl &&& 15)⟩ := by
    unfold HeaderParser.parseHeader
    have h0 : readUInt8 buf 0 = some b0 := by simp [readUInt8, hbufdef]
    rw [h0]
    dsimp only
    rw [if_pos hlong]
    exact hlh
  refine ⟨dcid, scid, 6 + decodeCIL (cl >>> 4) + decodeCIL (cl &&& 15), ?_, rfl, rfl⟩
  unfold HeaderParser.parse
  rw [hph]
  dsimp only
  unfold HeaderParser.parseLoop
  rfl

/-- Witness for version_negotiation_sentinel at first byte 0x85,
connection-ID-length byte 0x11. -/
theorem version_negotiation_sentinel_witness :
    ∃ dcid scid offEnd,
      HeaderParser.parse (0x85 :: 0 :: 0 :: 0 :: 0 :: 0x11 :: [1, 2, 3, 4]) =
        .ok [⟨Header.versionNegotiation dcid scid, offEnd⟩] ∧
      payloadLengthOf (Header.versionNegotiation dcid scid) = none ∧
      largestAckedOf (Header.versionNegotiation dcid scid) = none :=
  version_negotiation_sentinel 0x85 0x11 [1, 2, 3, 4]
    (by decide) (by decide) (by decide)

/-- Counterexample to C2 as stated: the first byte 0xF0 has the long-header
bit set and an all-zero version field follows, but the type bits equal
Retry, so the parser raises the protocol-violation error instead of routing
to version-negotiation parsing (the Retry check at header.parser.ts:103
precedes the version read at line 112). -/
theorem version_negotiation_sentinel_retry_counterexample :
    HeaderParser.parse [0xF0, 0, 0, 0, 0, 0] =
      .error ParseError.protocolViolation := by
  rfl

/-- A symbolic well-formed long-header packet, following the wire layout of
the spec (section 6): used to state the compound-packet claims over every
buffer containing encoded long-header packets. -/
structure LongPacketSpec where
  typeBits : Nat
  reservedBits : Nat
  pnLenCode : Nat
  version : ByteBuf
  dcilCode : Nat
  scilCode : Nat
  dcid : ByteBuf
  scid : ByteBuf
  tokenWidthExp : Nat
  token : ByteBuf
  plWidthExp : Nat
  pnBytes : ByteBuf
  frames : ByteBuf
deriving DecidableEq

/-- First byte: marker bits 11, type bits, reserved bits, pn-length code. -/
def LongPacketSpec.firstByte (p : LongPacketSpec) : Nat :=
  0xC0 + p.typeBits * 16 + p.reservedBits * 4 + p.pnLenCode

/-- Connection-ID-length byte: DCIL nibble, SCIL nibble. -/
def LongPacketSpec.cilByte (p : LongPacketSpec) : Nat :=
  p.dcilCode * 16 + p.scilCode

/-- The token-length/token field, present only for Initial packets. -/
def LongPacketSpec.tokenField (p : LongPacketSpec) : ByteBuf :=
  if p.typeBits = 0 then vlieEncode p.tokenWidthExp p.token.length ++ p.token
  else []

/-- The announced payload length: packet-number bytes plus frame bytes. -/
def LongPacketSpec.payloadValue (p : LongPacketSpec) : Nat :=
  p.pnBytes.length + p.frames.length

/-- The encoded header: first byte, version, CIL byte, connection IDs,
optional token field, payload-length varint, truncated packet number. -/
def LongPacketSpec.headerBytes (p : LongPacketSpec) : ByteBuf :=
  p.firstByte :: p.version ++ p.cilByte :: p.dcid ++ p.scid ++ p.tokenField ++
    vlieEncode p.plWidthExp p.payloadValue ++ p.pnBytes

/-- The whole encoded packet: header followed by the frame bytes. -/
def LongPacketSpec.bytes (p : LongPacketSpec) : ByteBuf :=
  p.headerBytes ++ p.frames

/-- Well-formedness of a symbolic long-header packet: valid bit-field
ranges, a 4-byte nonzero version, connection-ID lengths matching their
nibble codes, encodable varint values, and a packet number of the announced
length. -/
abbrev wfLongPacket (p : LongPacketSpec) : Prop :=
  p.typeBits < 3 ∧ p.reservedBits < 4 ∧ p.pnLenCode < 4 ∧
  p.version.length = 4 ∧ p.version ≠ [0, 0, 0, 0] ∧
  p.dcilCode < 16 ∧ p.scilCode < 16 ∧
  p.dcid.length = decodeCIL p.dcilCode ∧ p.scid.length = decodeCIL p.scilCode ∧
  p.tokenWidthExp < 4 ∧ p.token.length < 2 ^ (8 * 2 ^ p.tokenWidthExp - 2) ∧
  p.plWidthExp < 4 ∧ p.payloadValue < 2 ^ (8 * 2 ^ p.plWidthExp - 2) ∧
  p.pnBytes.length = p.pnLenCode + 1

/-- The header the parser produces for an encoded long-header packet. -/
def LongPacketSpec.parsedHeader (p : LongPacketSpec) : Header :=
  Header.long (p.typeBits : Int)
    ⟨p.dcid, decodeCIL p.dcilCode⟩ ⟨p.scid, decodeCIL p.scilCode⟩
    (p.payloadValue : Int) p.version (vlieEncode p.plWidthExp p.payloadValue)
    p.pnBytes 0
    (if p.typeBits = 0 ∧ 0 < p.token.length then some p.token else none)
    (some p.headerBytes)

theorem parseInitialToken_encoded (buf : ByteBuf) (q : Nat) (p : LongPacketSpec)
    (tail : ByteBuf) (hwf : wfLongPacket p) (hq : q ≤ buf.length)
    (hdrop : buf.drop q = p.tokenField ++ tail) :
    HeaderParser.parseInitialToken buf q (p.typeBits : Int) =
      .ok (q + p.tokenField.length,
        if p.typeBits = 0 ∧ 0 < p.token.length then some p.token else none) := by
  obtain ⟨-, -, -, -, -, -, -, -, -, hte, htv, -, -, -⟩ := hwf
  unfold HeaderParser.parseInitialToken
  by_cases h0 : p.typeBits = 0
  · rw [if_pos (by simp [LongHeaderType.Initial, h0])]
    rw [LongPacketSpec.tokenField, if_pos h0] at hdrop
    rw [List.append_assoc] at hdrop
    rw [vlie_decode_encode buf q p.tokenWidthExp p.token.length _ hte htv hq hdrop]
    dsimp only
    have hlen : p.tokenField.length = 2 ^ p.tokenWidthExp + p.token.length := by
      simp [LongPacketSpec.tokenField, h0, vlieEncode_length]
    by_cases htok : 0 < p.token.length
    · rw [if_pos htok]
      have hdrop2 : buf.drop (q + 2 ^ p.tokenWidthExp) = p.token ++ tail := by
        rw [← List.drop_drop (2 ^ p.tokenWidthExp) q buf, hdrop]
        rw [← vlieEncode_length p.tokenWidthExp p.token.length]
        exact List.drop_left _ _
      have hcopy : allocCopy buf p.token.length (q + 2 ^ p.tokenWidthExp) =
          p.token := by
        unfold allocCopy jsSlice
        rw [show q + 2 ^ p.tokenWidthExp + p.token.length -
          (q + 2 ^ p.tokenWidthExp) = p.token.length from by omega]
        rw [hdrop2, List.take_left' rfl]
        simp
      rw [hcopy, hlen]
      rw [if_pos ⟨h0, htok⟩]
      rw [← Nat.add_assoc]
    · rw [if_neg htok]
      rw [if_neg (by intro hc; exact htok hc.2)]
      have htok0 : p.token.length = 0 := by omega
      rw [hlen, htok0, Nat.add_zero]
  · rw [if_neg (by simp [LongHeaderType.Initial]; omega)]
    rw [if_neg (by intro hc; exact h0 hc.1)]
    have hz : p.tokenField.length = 0 := by
      simp [LongPacketSpec.tokenField, h0]
    rw [hz, Nat.add_zero]

theorem parseHeader_longPacket (buf : ByteBuf) (o : Nat) (p : LongPacketSpec)
    (rest : ByteBuf) (hwf : wfLongPacket p)
    (hdrop : buf.drop o = p.bytes ++ rest) (ho : o ≤ buf.length) :
    HeaderParser.parseHeader buf (o : Int) =
      .ok ⟨p.parsedHeader, o + p.headerBytes.length⟩ := by
  obtain ⟨ht, hr, hc, hv4, hvne, hdc, hsc, hdl, hsl, hte, htv, hpe, hpv, hpn⟩ := hwf
  have hfb128 : p.firstByte &&& 128 = 128 :=
    byte_and_128_of_ge p.firstByte
      (by unfold LongPacketSpec.firstByte; omega)
      (by unfold LongPacketSpec.firstByte; omega)
  set dl := decodeCIL p.dcilCode with hdldef
  set sl := decodeCIL p.scilCode with hsldef
  set tl := p.tokenField.length with htldef
  set w := 2 ^ p.plWidthExp with hwdef
  set plEnc := vlieEncode p.plWidthExp p.payloadValue with hplEncdef
  set X := p.pnBytes ++ (p.frames ++ rest) with hXdef
  clear_value dl sl tl w plEnc X
  have hT : p.bytes ++ rest = p.firstByte :: (p.version ++ (p.cilByte ::
      (p.dcid ++ (p.scid ++ (p.tokenField ++ (plEnc ++ X)))))) := by
    simp [LongPacketSpec.bytes, LongPacketSpec.headerBytes, hXdef,
      ← hplEncdef]
  have hD1 : (p.bytes ++ rest).drop 1 = p.version ++ (p.cilByte ::
      (p.dcid ++ (p.scid ++ (p.tokenField ++ (plEnc ++ X))))) := by
    rw [hT]
    rfl
  have hD5 : (p.bytes ++ rest).drop 5 = p.cilByte ::
      (p.dcid ++ (p.scid ++ (p.tokenField ++ (plEnc ++ X)))) := by
    rw [show (5 : Nat) = 1 + 4 from rfl, ← List.drop_drop, hD1, ← hv4]
    exact List.drop_left _ _
  have hD6 : (p.bytes ++ rest).drop 6 = p.dcid ++ (p.scid ++
      (p.tokenField ++ (plEnc ++ X))) := by
    rw [show (6 : Nat) = 5 + 1 from rfl, ← List.drop_drop, hD5]
    rfl
  have hDd : (p.bytes ++ rest).drop (6 + dl) = p.scid ++
      (p.tokenField ++ (plEnc ++ X)) := by
    rw [← List.drop_drop, hD6, ← hdl]
    exact List.drop_left _ _
  have hDs : (p.bytes ++ rest).drop (6 + dl + sl) = p.tokenField ++
      (plEnc ++ X) := by
    rw [show 6 + dl + sl = (6 + dl) + sl from rfl, ← List.drop_drop, hDd, ← hsl]
    exact List.drop_left _ _
  have hDt : (p.bytes ++ rest).drop (6 + dl + sl + tl) = plEnc ++ X := by
    rw [show 6 + dl + sl + tl = (6 + dl + sl) + tl from rfl, ← List.drop_drop,
      hDs, htldef]
    exact List.drop_left _ _
  have hwpl : w = plEnc.length := by
    rw [hplEncdef, vlieEncode_length]
    exact hwdef
  have hDw : (p.bytes ++ rest).drop (6 + dl + sl + tl + w) = X := by
    rw [show 6 + dl + sl + tl + w = (6 + dl + sl + tl) + w from rfl,
      ← List.drop_drop, hDt, hwpl]
    exact List.drop_left _ _
  have habs : ∀ k : Nat, buf.drop (o + k) = (p.bytes ++ rest).drop k := by
    intro k
    rw [← List.drop_drop k o buf, hdrop]
  have hblen : buf.length = o + ((p.bytes ++ rest).length) := by
    have hl := congrArg List.length hdrop
    rw [List.length_drop] at hl
    omega
  have hseg : ∀ k : Nat, (p.bytes ++ rest).drop k ≠ [] →
      o + k ≤ buf.length := by
    intro k hk
    by_contra hcon
    have h1 : (p.bytes ++ rest).length ≤ k := by omega
    exact hk (List.drop_eq_nil_of_le h1)
  have hread : ∀ (k x : Nat), (p.bytes ++ rest)[k]? = some x →
      readByte buf (o + k) = some x := by
    intro k x hk
    unfold readByte
    rw [← List.getElem?_drop buf o k, hdrop]
    exact hk
  have h0read : readByte buf o = some p.firstByte := by
    have h1 : (p.bytes ++ rest)[0]? = some p.firstByte := by
      rw [hT]
      simp
    have h2 := hread 0 p.firstByte h1
    rwa [Nat.add_zero] at h2
  have h5read : readByte buf (o + 1 + 4) = some p.cilByte := by
    have h1 : (p.bytes ++ rest)[5]? = some p.cilByte := by
      have h2 := List.getElem?_drop (p.bytes ++ rest) 5 0
      rw [Nat.add_zero] at h2
      rw [← h2, hD5]
      simp
    rw [show o + 1 + 4 = o + 5 from by omega]
    exact hread 5 p.cilByte h1
  have hfbyte : (p.firstByte : Int) - 192 =
      ((p.typeBits * 16 + p.reservedBits * 4 + p.pnLenCode : Nat) : Int) := by
    unfold LongPacketSpec.firstByte
    push_cast
    ring
  have htype : jsShr ((p.firstByte : Int) - 192) 4 = (p.typeBits : Int) := by
    rw [hfbyte, jsShr_small _ (by omega) (by omega)]
    omega
  have hpnlen : (jsAnd ((p.firstByte : Int) - 192) 3).toNat + 1 =
      p.pnBytes.length := by
    rw [hfbyte, jsAnd_three]
    omega
  have hver : jsSlice buf (o + 1) (o + 1 + 4) = p.version := by
    unfold jsSlice
    rw [Nat.add_sub_cancel_left]
    rw [habs 1, hD1, ← hv4]
    exact List.take_left _ _
  have hvnflag : isVersionNegotiationFlag p.version = false := by
    simp [isVersionNegotiationFlag]
    exact hvne
  have hcil1 : p.cilByte >>> 4 = p.dcilCode := by
    rw [Nat.shiftRight_eq_div_pow, show (2 : Nat) ^ 4 = 16 from rfl]
    unfold LongPacketSpec.cilByte
    omega
  have hcil2 : p.cilByte &&& 15 = p.scilCode := by
    rw [byte_and_fifteen]
    unfold LongPacketSpec.cilByte
    omega
  have hdslice : jsSlice buf (o + 1 + 4 + 1) (o + 1 + 4 + 1 + dl) = p.dcid := by
    unfold jsSlice
    rw [show o + 1 + 4 + 1 = o + 6 from by omega]
    rw [Nat.add_sub_cancel_left]
    rw [habs 6, hD6]
    exact List.take_left' hdl
  have hsslice : jsSlice buf (o + 1 + 4 + 1 + dl)
      (o + 1 + 4 + 1 + dl + sl) = p.scid := by
    unfold jsSlice
    rw [show o + 1 + 4 + 1 + dl = o + (6 + dl) from by omega]
    rw [Nat.add_sub_cancel_left]
    rw [habs (6 + dl), hDd]
    exact List.take_left' hsl
  have htok : HeaderParser.parseInitialToken buf (o + 1 + 4 + 1 + dl + sl)
      (p.typeBits : Int) =
      .ok (o + 1 + 4 + 1 + dl + sl + tl,
        if p.typeBits = 0 ∧ 0 < p.token.length then some p.token else none) := by
    rw [show o + 1 + 4 + 1 + dl + sl = o + (6 + dl + sl) from by omega,
      htldef]
    exact parseInitialToken_encoded buf (o + (6 + dl + sl)) p (plEnc ++ X)
      ⟨ht, hr, hc, hv4, hvne, hdc, hsc, by rw [hdl]; exact hdldef,
       by rw [hsl]; exact hsldef,
       hte, htv, hpe, by rw [hwdef] at hpv; exact hpv, hpn⟩
      (by
        apply hseg
        rw [hDs]
        simp [hplEncdef, vlieEncode])
      (by rw [habs (6 + dl + sl)]; exact hDs)
  have hpld : VLIE.decode buf (o + 1 + 4 + 1 + dl + sl + tl) =
      some ⟨p.payloadValue, o + 1 + 4 + 1 + dl + sl + tl + w⟩ := by
    rw [show o + 1 + 4 + 1 + dl + sl + tl = o + (6 + dl + sl + tl) from by omega]
    rw [show o + (6 + dl + sl + tl) + w =
      o + (6 + dl + sl + tl) + 2 ^ p.plWidthExp from by rw [hwdef]]
    apply vlie_decode_encode buf _ _ _ X hpe (by rw [hwdef] at hpv; exact hpv)
    · apply hseg
      rw [hDt, hplEncdef]
      simp [vlieEncode]
    · rw [habs (6 + dl + sl + tl), hDt, hplEncdef]
  have hretry : ¬ ((p.typeBits : Int) = LongHeaderType.Retry) := by
    simp only [LongHeaderType.Retry]
    omega
  have hplb : allocCopy buf (o + 1 + 4 + 1 + dl + sl + tl + w -
      (o + 1 + 4 + 1 + dl + sl + tl)) (o + 1 + 4 + 1 + dl + sl + tl) =
      plEnc := by
    rw [Nat.add_sub_cancel_left]
    unfold allocCopy jsSlice
    rw [show o + 1 + 4 + 1 + dl + sl + tl = o + (6 + dl + sl + tl) from by omega]
    rw [Nat.add_sub_cancel_left]
    rw [habs (6 + dl + sl + tl), hDt]
    rw [List.take_left' (by rw [hplEncdef, vlieEncode_length]; exact hwdef.symm)]
    rw [hplEncdef, hwdef, vlieEncode_length]
    simp
  have hpns : jsSlice buf (o + 1 + 4 + 1 + dl + sl + tl + w)
      (o + 1 + 4 + 1 + dl + sl + tl + w + p.pnBytes.length) = p.pnBytes := by
    unfold jsSlice
    rw [show o + 1 + 4 + 1 + dl + sl + tl + w = o + (6 + dl + sl + tl + w) from
      by omega]
    rw [Nat.add_sub_cancel_left]
    rw [habs (6 + dl + sl + tl + w), hDw, hXdef]
    exact List.take_left _ _
  have hhb : p.headerBytes.length = 6 + dl + sl + tl + w + p.pnBytes.length := by
    simp [LongPacketSpec.headerBytes, List.length_append, List.length_cons,
      vlieEncode_length]
    omega
  have hspan : jsSlice buf o (o + p.headerBytes.length) = p.headerBytes := by
    unfold jsSlice
    rw [Nat.add_sub_cancel_left]
    rw [hdrop, LongPacketSpec.bytes, List.append_assoc]
    exact List.take_left _ _
  have hru : readUInt8 buf (o : Int) = some p.firstByte := by
    unfold readUInt8
    rw [if_neg (by omega)]
    rw [Int.toNat_natCast]
    exact h0read
  unfold HeaderParser.parseHeader
  rw [hru]
  dsimp only
  rw [if_pos hfb128, Int.toNat_natCast]
  unfold HeaderParser.parseLongHeader
  rw [h0read]
  dsimp only
  rw [htype, if_neg hretry, hver]
  rw [if_neg (by rw [hvnflag]; exact Bool.false_ne_true)]
  rw [h5read]
  dsimp only
  rw [hcil1, hcil2, ← hdldef, ← hsldef, hdslice, hsslice, htok]
  dsimp only
  rw [hpld]
  dsimp only
  have hoff : o + 1 + 4 + 1 + dl + sl + tl + w + p.pnBytes.length =
      o + p.headerBytes.length := by
    rw [hhb]
    ring
  rw [hpnlen]
  rw [hplb]
  rw [hpns]
  rw [hoff]
  rw [hspan]
  rw [hdldef, hsldef, hplEncdef]
  rfl

/-- A symbolic short-header packet following the code's custom layout:
first byte (marker bits 01), then the destination-connection-ID length byte
d (the copied connection ID consists of that byte and the d-1 bytes after
it), then the truncated packet number, then the protected payload. -/
structure ShortPacketSpec where
  firstByte : Nat
  cidTail : ByteBuf
  pnBytes : ByteBuf
  frames : ByteBuf
deriving DecidableEq

/-- The encoded short header: the CID field spans the length byte itself
plus the tail, as the parser copies [offset, offset + dcil) starting at the
length byte. -/
def ShortPacketSpec.headerBytes (s : ShortPacketSpec) : ByteBuf :=
  s.firstByte :: (s.cidTail.length + 1) :: s.cidTail ++ s.pnBytes

/-- The whole encoded short packet: header followed by payload bytes. -/
def ShortPacketSpec.bytes (s : ShortPacketSpec) : ByteBuf :=
  s.headerBytes ++ s.frames

/-- Well-formedness: short-header marker bits 01, packet number of the
length announced by the two low bits of the first byte, and a length byte
that fits in one byte. -/
abbrev wfShortPacket (s : ShortPacketSpec) : Prop :=
  0x40 ≤ s.firstByte ∧ s.firstByte < 0x80 ∧
  s.pnBytes.length = s.firstByte % 4 + 1 ∧
  s.cidTail.length + 1 < 256

theorem parseHeader_shortPacket (buf : ByteBuf) (o : Nat) (s : ShortPacketSpec)
    (rest : ByteBuf) (hwf : wfShortPacket s)
    (hdrop : buf.drop o = s.bytes ++ rest) (ho : o ≤ buf.length) :
    ∃ keyPhase spin : Bool,
      HeaderParser.parseHeader buf (o : Int) =
        .ok ⟨Header.short ⟨(s.cidTail.length + 1) :: s.cidTail,
            s.cidTail.length + 1⟩ keyPhase spin s.pnBytes 0
            (some s.headerBytes),
          o + s.headerBytes.length⟩ := by
  obtain ⟨hge, hlt, hpn, hcb⟩ := hwf
  have hT : s.bytes ++ rest = s.firstByte :: ((s.cidTail.length + 1) ::
      (s.cidTail ++ (s.pnBytes ++ (s.frames ++ rest)))) := by
    simp [ShortPacketSpec.bytes, ShortPacketSpec.headerBytes]
  have habs : ∀ k : Nat, buf.drop (o + k) = (s.bytes ++ rest).drop k := by
    intro k
    rw [← List.drop_drop k o buf, hdrop]
  have hread : ∀ (k x : Nat), (s.bytes ++ rest)[k]? = some x →
      readByte buf (o + k) = some x := by
    intro k x hk
    unfold readByte
    rw [← List.getElem?_drop buf o k, hdrop]
    exact hk
  have h0read : readByte buf o = some s.firstByte := by
    have h1 : (s.bytes ++ rest)[0]? = some s.firstByte := by
      rw [hT]
      simp
    have h2 := hread 0 s.firstByte h1
    rwa [Nat.add_zero] at h2
  have h1read : readByte buf (o + 1) = some (s.cidTail.length + 1) := by
    apply hread 1
    rw [hT]
    simp
  have hD1 : (s.bytes ++ rest).drop 1 = (s.cidTail.length + 1) ::
      (s.cidTail ++ (s.pnBytes ++ (s.frames ++ rest))) := by
    rw [hT]
    rfl
  have hDcid : (s.bytes ++ rest).drop (1 + (s.cidTail.length + 1)) =
      s.pnBytes ++ (s.frames ++ rest) := by
    rw [← List.drop_drop, hD1]
    rw [show s.cidTail.length + 1 = ((s.cidTail.length + 1) ::
      s.cidTail).length from by simp]
    exact List.drop_left _ _
  have hpnval : (jsAnd ((s.firstByte : Int) - 64) 3).toNat + 1 =
      s.pnBytes.length := by
    rw [jsAnd_three]
    omega
  have hcid : allocCopy buf (s.cidTail.length + 1) (o + 1) =
      (s.cidTail.length + 1) :: s.cidTail := by
    unfold allocCopy jsSlice
    rw [Nat.add_sub_cancel_left]
    rw [habs 1, hD1]
    rw [show ((s.cidTail.length + 1) :: (s.cidTail ++ (s.pnBytes ++
      (s.frames ++ rest)))) = ((s.cidTail.length + 1) :: s.cidTail) ++
      (s.pnBytes ++ (s.frames ++ rest)) from by simp]
    rw [List.take_left' (by simp)]
    simp
  have hpns : jsSlice buf (o + 1 + (s.cidTail.length + 1))
      (o + 1 + (s.cidTail.length + 1) + s.pnBytes.length) = s.pnBytes := by
    unfold jsSlice
    rw [Nat.add_sub_cancel_left]
    rw [show o + 1 + (s.cidTail.length + 1) = o + (1 + (s.cidTail.length + 1))
      from by omega]
    rw [habs (1 + (s.cidTail.length + 1)), hDcid]
    exact List.take_left _ _
  have hhbl : s.headerBytes.length = 1 + (s.cidTail.length + 1) +
      s.pnBytes.length := by
    simp [ShortPacketSpec.headerBytes]
    ring
  have hspan : jsSlice buf o (o + s.headerBytes.length) = s.headerBytes := by
    unfold jsSlice
    rw [Nat.add_sub_cancel_left]
    rw [hdrop, ShortPacketSpec.bytes, List.append_assoc]
    exact List.take_left _ _
  have hoff : o + 1 + (s.cidTail.length + 1) + s.pnBytes.length =
      o + s.headerBytes.length := by
    rw [hhbl]
    ring
  have hru : readUInt8 buf (o : Int) = some s.firstByte := by
    unfold readUInt8
    rw [if_neg (by omega)]
    rw [Int.toNat_natCast]
    exact h0read
  refine ⟨jsAnd ((s.firstByte : Int) - 64) 4 == 4,
    jsAnd ((s.firstByte : Int) - 64) 32 == 32, ?_⟩
  unfold HeaderParser.parseHeader
  rw [hru]
  dsimp only
  rw [if_neg (byte_and_128_of_lt s.firstByte (by omega)), Int.toNat_natCast]
  unfold HeaderParser.parseShortHeader
  rw [h0read]
  dsimp only
  rw [h1read]
  dsimp only
  rw [hpnval, hcid, hpns, hoff, hspan]

theorem parsedHeader_payloadLength (p : LongPacketSpec) :
    payloadLengthOf p.parsedHeader = some (p.payloadValue : Int) := rfl

theorem headerBytes_length_eq (p : LongPacketSpec)
    (hv4 : p.version.length = 4) :
    p.headerBytes.length = 6 + p.dcid.length + p.scid.length +
      p.tokenField.length + 2 ^ p.plWidthExp + p.pnBytes.length := by
  simp [LongPacketSpec.headerBytes, vlieEncode_length, hv4]
  ring

theorem parseLoop_stop_none (buf : ByteBuf) (acc : List HeaderOffset)
    (last : HeaderOffset) (ts : Int) (fuel : Nat)
    (hpl : payloadLengthOf last.header = none) :
    HeaderParser.parseLoop buf acc last ts fuel = .ok acc := by
  cases fuel with
  | zero => rfl
  | succ n =>
    unfold HeaderParser.parseLoop
    rw [hpl]

theorem parseLoop_stop (buf : ByteBuf) (acc : List HeaderOffset)
    (last : HeaderOffset) (ts : Int) (fuel : Nat) (pl : Int)
    (hpl : payloadLengthOf last.header = some pl)
    (hstop : ¬ (ts + pl + ((last.offset : Int) - ts) < (buf.length : Int))) :
    HeaderParser.parseLoop buf acc last ts fuel = .ok acc := by
  cases fuel with
  | zero => rfl
  | succ n =>
    unfold HeaderParser.parseLoop
    rw [hpl]
    dsimp only
    rw [if_neg hstop]

theorem parseLoop_cont (buf : ByteBuf) (acc : List HeaderOffset)
    (last : HeaderOffset) (ts : Int) (fuel : Nat) (pl : Int)
    (ho : HeaderOffset)
    (hpl : payloadLengthOf last.header = some pl)
    (hlt : ts + pl + ((last.offset : Int) - ts) < (buf.length : Int))
    (hph : HeaderParser.parseHeader buf
      (ts + pl + ((last.offset : Int) - ts) - 4) = .ok ho) :
    HeaderParser.parseLoop buf acc last ts (fuel + 1) =
      HeaderParser.parseLoop buf (acc ++ [ho]) ho
        (ts + pl + ((last.offset : Int) - ts)) fuel := by
  conv_lhs => rw [HeaderParser.parseLoop]
  rw [hpl]
  dsimp only
  rw [if_pos hlt, hph]

/-- C1 (amended): for every buffer containing two concatenated well-formed
long-header packets whose FIRST packet carries a 4-byte packet number
(pnLenCode = 3, matching the loop's fixed 4-byte correction), parse returns
exactly two HeaderOffset entries; the second packet is parsed exactly at
offset p1.bytes.length, which equals the first header's end offset plus its
announced payload length minus the 4 packet-number bytes already consumed
(the payload length includes them), so they are not double counted. -/
theorem compound_two_long_packets (p1 p2 : LongPacketSpec)
    (hw1 : wfLongPacket p1) (hw2 : wfLongPacket p2)
    (hpn1 : p1.pnLenCode = 3) :
    ∃ hdr1 hdr2 : Header,
      HeaderParser.parse (p1.bytes ++ p2.bytes) =
        .ok [⟨hdr1, p1.headerBytes.length⟩,
             ⟨hdr2, p1.bytes.length + p2.headerBytes.length⟩] ∧
      payloadLengthOf hdr1 = some (p1.payloadValue : Int) ∧
      p1.bytes.length = p1.headerBytes.length + p1.payloadValue - 4 := by
  have hv41 := hw1.2.2.2.1
  have hv42 := hw2.2.2.2.1
  have hpnc1 := hw1.2.2.1
  have hpnl1 : p1.pnBytes.length = 4 := by
    have h := hw1.2.2.2.2.2.2.2.2.2.2.2.2.2
    omega
  have hpnl2 : 1 ≤ p2.pnBytes.length := by
    have h := hw2.2.2.2.2.2.2.2.2.2.2.2.2.2
    omega
  set buf := p1.bytes ++ p2.bytes with hbuf
  have hb1len : p1.bytes.length = p1.headerBytes.length + p1.frames.length := by
    simp [LongPacketSpec.bytes]
  have hb2len : p2.bytes.length = p2.headerBytes.length + p2.frames.length := by
    simp [LongPacketSpec.bytes]
  have hpv1 : p1.payloadValue = 4 + p1.frames.length := by
    unfold LongPacketSpec.payloadValue
    omega
  have hpv2 : p2.payloadValue = p2.pnBytes.length + p2.frames.length := rfl
  have hhb2min : 8 ≤ p2.headerBytes.length := by
    rw [headerBytes_length_eq p2 hv42]
    have h1 : 1 ≤ 2 ^ p2.plWidthExp := Nat.one_le_two_pow
    omega
  have hbl : buf.length = p1.bytes.length + p2.bytes.length := by
    rw [hbuf, List.length_append]
  have hph1 : HeaderParser.parseHeader buf 0 =
      .ok ⟨p1.parsedHeader, p1.headerBytes.length⟩ := by
    have h := parseHeader_longPacket buf 0 p1 p2.bytes hw1
      (by rw [hbuf, List.drop_zero]) (by omega)
    norm_num at h
    exact h
  have hph2 : HeaderParser.parseHeader buf ((p1.bytes.length : Nat) : Int) =
      .ok ⟨p2.parsedHeader, p1.bytes.length + p2.headerBytes.length⟩ := by
    apply parseHeader_longPacket buf p1.bytes.length p2 [] hw2
    · rw [hbuf, List.drop_left, List.append_nil]
    · omega
  refine ⟨p1.parsedHeader, p2.parsedHeader, ?_, rfl, by omega⟩
  unfold HeaderParser.parse
  rw [hph1]
  dsimp only
  have hcont := parseLoop_cont buf
    [⟨p1.parsedHeader, p1.headerBytes.length⟩]
    ⟨p1.parsedHeader, p1.headerBytes.length⟩ 0 buf.length
    (p1.payloadValue : Int)
    ⟨p2.parsedHeader, p1.bytes.length + p2.headerBytes.length⟩
    rfl
    (by push_cast; omega)
    (by
      rw [show (0 : Int) + (p1.payloadValue : Int) +
        (((p1.headerBytes.length : Nat) : Int) - 0) - 4 =
        ((p1.bytes.length : Nat) : Int) from by push_cast; omega]
      exact hph2)
  rw [hcont]
  have hstop := parseLoop_stop buf
    ([⟨p1.parsedHeader, p1.headerBytes.length⟩] ++
      [⟨p2.parsedHeader, p1.bytes.length + p2.headerBytes.length⟩])
    ⟨p2.parsedHeader, p1.bytes.length + p2.headerBytes.length⟩
    ((0 : Int) + (p1.payloadValue : Int) +
      (((p1.headerBytes.length : Nat) : Int) - 0))
    buf.length (p2.payloadValue : Int) rfl
    (by push_cast; omega)
  rw [hstop]
  rfl

/-- C7 (amended): a buffer containing a well-formed long-header packet with
a 4-byte packet number immediately followed by a short-header packet
spanning more than 4 bytes yields exactly two entries, the second being the
ShortHeader, with any trailing payload bytes after the short header left
unparsed; and in every successful parse result a ShortHeader entry is never
followed by another entry. -/
theorem long_then_short_packets (p : LongPacketSpec) (s : ShortPacketSpec)
    (hwp : wfLongPacket p) (hws : wfShortPacket s) (hpn1 : p.pnLenCode = 3)
    (hsize : 4 < s.bytes.length) :
    (∃ hdr1 hdr2 : Header,
      isShortHeader hdr2 = true ∧
      HeaderParser.parse (p.bytes ++ s.bytes) =
        .ok [⟨hdr1, p.headerBytes.length⟩,
             ⟨hdr2, p.bytes.length + s.headerBytes.length⟩]) ∧
    (∀ (b : ByteBuf) (res : List HeaderOffset),
      HeaderParser.parse b = .ok res →
      ∀ i (hi : i + 1 < res.length),
        isShortHeader ((res.get ⟨i, by omega⟩).header) = false) := by
  refine ⟨?_, parse_shortHeader_terminal⟩
  have hv41 := hwp.2.2.2.1
  have hpnl1 : p.pnBytes.length = 4 := by
    have h := hwp.2.2.2.2.2.2.2.2.2.2.2.2.2
    have h2 := hwp.2.2.1
    omega
  set buf := p.bytes ++ s.bytes with hbuf
  have hb1len : p.bytes.length = p.headerBytes.length + p.frames.length := by
    simp [LongPacketSpec.bytes]
  have hpv1 : p.payloadValue = 4 + p.frames.length := by
    unfold LongPacketSpec.payloadValue
    omega
  have hbl : buf.length = p.bytes.length + s.bytes.length := by
    rw [hbuf, List.length_append]
  have hph1 : HeaderParser.parseHeader buf 0 =
      .ok ⟨p.parsedHeader, p.headerBytes.length⟩ := by
    have h := parseHeader_longPacket buf 0 p s.bytes hwp
      (by rw [hbuf, List.drop_zero]) (by omega)
    norm_num at h
    exact h
  obtain ⟨kp, sp, hph2⟩ := parseHeader_shortPacket buf p.bytes.length s []
    hws (by rw [hbuf, List.drop_left, List.append_nil]) (by omega)
  refine ⟨p.parsedHeader,
    Header.short ⟨(s.cidTail.length + 1) :: s.cidTail, s.cidTail.length + 1⟩
      kp sp s.pnBytes 0 (some s.headerBytes), rfl, ?_⟩
  unfold HeaderParser.parse
  rw [hph1]
  dsimp only
  have hcont := parseLoop_cont buf
    [⟨p.parsedHeader, p.headerBytes.length⟩]
    ⟨p.parsedHeader, p.headerBytes.length⟩ 0 buf.length
    (p.payloadValue : Int)
    ⟨Header.short ⟨(s.cidTail.length + 1) :: s.cidTail, s.cidTail.length + 1⟩
      kp sp s.pnBytes 0 (some s.headerBytes),
     p.bytes.length + s.headerBytes.length⟩
    rfl
    (by push_cast; omega)
    (by
      rw [show (0 : Int) + (p.payloadValue : Int) +
        (((p.headerBytes.length : Nat) : Int) - 0) - 4 =
        ((p.bytes.length : Nat) : Int) from by push_cast; omega]
      exact hph2)
  rw [hcont]
  have hstop := parseLoop_stop_none buf
    ([⟨p.parsedHeader, p.headerBytes.length⟩] ++
      [⟨Header.short ⟨(s.cidTail.length + 1) :: s.cidTail,
          s.cidTail.length + 1⟩ kp sp s.pnBytes 0 (some s.headerBytes),
        p.bytes.length + s.headerBytes.length⟩])
    ⟨Header.short ⟨(s.cidTail.length + 1) :: s.cidTail, s.cidTail.length + 1⟩
      kp sp s.pnBytes 0 (some s.headerBytes),
     p.bytes.length + s.headerBytes.length⟩
    ((0 : Int) + (p.payloadValue : Int) +
      (((p.headerBytes.length : Nat) : Int) - 0))
    buf.length rfl
  rw [hstop]
  rfl

/-- The first packet of the C1 counterexample: a well-formed Handshake
long-header packet with a 1-byte packet number (pnLenCode 0), payload
length 4 (1 packet-number byte + 3 frame bytes), whose first frame byte
0xF0 has long-header Retry-like type bits. -/
def c1CexSpec : LongPacketSpec :=
  ⟨2, 0, 0, [1, 0, 0, 0], 0, 0, [], [], 0, [], 0, [5], [0xF0, 0, 0]⟩

/-- Counterexample to C1 as stated: a buffer of two concatenated well-formed
long-header packets whose first packet carries a 1-byte packet number.  The
loop subtracts a fixed 4 instead of the actually consumed packet-number
length (header.parser.ts:51), so the second parse starts 3 bytes early,
inside the first packet's frame bytes, and the whole parse throws instead
of returning two HeaderOffset entries partitioning the buffer. -/
theorem compound_pn_counterexample :
    wfLongPacket c1CexSpec ∧
    HeaderParser.parse (c1CexSpec.bytes ++ c1CexSpec.bytes) =
      .error ParseError.protocolViolation :=
  ⟨by decide, by rfl⟩

/-- The concrete packet of the C1 witness: a well-formed Handshake
long-header packet with a 4-byte packet number and one frame byte. -/
def c1WitnessSpec : LongPacketSpec :=
  ⟨2, 0, 3, [1, 0, 0, 0], 0, 0, [], [], 0, [], 0, [9, 9, 9, 9], [0x99]⟩

/-- Witness for compound_two_long_packets at two concrete packets. -/
theorem compound_two_long_packets_witness :
    ∃ hdr1 hdr2 : Header,
      HeaderParser.parse (c1WitnessSpec.bytes ++ c1WitnessSpec.bytes) =
        .ok [⟨hdr1, c1WitnessSpec.headerBytes.length⟩,
             ⟨hdr2, c1WitnessSpec.bytes.length +
                      c1WitnessSpec.headerBytes.length⟩] ∧
      payloadLengthOf hdr1 = some (c1WitnessSpec.payloadValue : Int) ∧
      c1WitnessSpec.bytes.length =
        c1WitnessSpec.headerBytes.length + c1WitnessSpec.payloadValue - 4 :=
  compound_two_long_packets c1WitnessSpec c1WitnessSpec
    (by decide) (by decide) rfl

/-- The long-header packet of the C7 counterexample: well formed, 4-byte
packet number, one frame byte. -/
def c7CexLong : LongPacketSpec :=
  ⟨2, 0, 3, [1, 0, 0, 0], 0, 0, [], [], 0, [], 0, [9, 9, 9, 9], [0x99]⟩

/-- The short-header packet of the C7 counterexample: 3 bytes in total
(first byte 0x40, a 1-byte destination connection ID, a 1-byte packet
number), hence not more than 4 bytes long. -/
def c7CexShort : ShortPacketSpec := ⟨0x40, [], [9], []⟩

/-- Counterexample to C7 as stated: a well-formed long-header packet
followed by a well-formed 3-byte short-header packet yields only ONE
HeaderOffset entry, not two.  The loop guard `offset < buffer.byteLength - 4`
(header.parser.ts:49) stops before a trailing packet of at most 4 bytes is
ever examined, so the short packet is silently dropped. -/
theorem long_then_short_counterexample :
    wfLongPacket c7CexLong ∧ wfShortPacket c7CexShort ∧
    Except.map List.length
        (HeaderParser.parse (c7CexLong.bytes ++ c7CexShort.bytes)) =
      .ok 1 :=
  ⟨by decide, by decide, by rfl⟩

/-- The long-header packet of the C7 witness. -/
def c7WitnessLong : LongPacketSpec :=
  ⟨2, 0, 3, [1, 0, 0, 0], 0, 0, [], [], 0, [], 0, [9, 9, 9, 9], [0x99]⟩

/-- The short-header packet of the C7 witness: 5 bytes in total (first byte
0x40, a 1-byte destination connection ID, a 1-byte packet number, two
trailing payload bytes). -/
def c7WitnessShort : ShortPacketSpec := ⟨0x40, [], [9], [0xAA, 0xBB]⟩

/-- Witness for long_then_short_packets at a concrete long packet followed
by a concrete 5-byte short packet. -/
theorem long_then_short_packets_witness :
    (∃ hdr1 hdr2 : Header, isShortHeader hdr2 = true ∧
      HeaderParser.parse (c7WitnessLong.bytes ++ c7WitnessShort.bytes) =
        .ok [⟨hdr1, c7WitnessLong.headerBytes.length⟩,
             ⟨hdr2, c7WitnessLong.bytes.length +
                      c7WitnessShort.headerBytes.length⟩]) ∧
    (∀ (b : ByteBuf) (res : List HeaderOffset),
      HeaderParser.parse b = .ok res →
      ∀ i (hi : i + 1 < res.length),
        isShortHeader ((res.get ⟨i, by omega⟩).header) = false) :=
  long_then_short_packets c7WitnessLong c7WitnessShort
    (by decide) (by decide) rfl (by decide)
